import Mathlib

/-!
# A shallow embedding of the tinyDVR supervisor

This file models `tinyDVR.py`: the file inventory (`list_recording_files`,
`folder_size_bytes`, `newest_recording_mtime`), the storage reclaimer
(`enforce_storage_cap`), the status records written by `main` on its two
publication paths, and one iteration ("tick") of the supervisor loop in
`main`, as pure Lean functions.

Modelling conventions:
* Timestamps (`time.time()`, `st_mtime`) are integers (epoch seconds); the
  CPU-percent and memory-MB metrics are likewise integers.  No claim below
  depends on fractional values, and `round(x, 1)` on the
  `seconds_since_last_ok` field is the identity on integral differences.
* The filesystem is explicit: a directory state is `none` (directory absent,
  `os.listdir` raises `FileNotFoundError`) or a list of entries, each with a
  name and an optional `(st_mtime, st_size)` stat result (`none` models the
  file vanishing between `listdir` and `stat`).
* `os.remove` outcomes are an oracle `del : String → DelRes`, one of
  success, `FileNotFoundError`, or any other exception, matching the three
  branches of the `try` in `enforce_storage_cap`.
* One loop iteration of `main` (after the cadence sleep) is the function
  `tick`; its observable actions (status-file publications, sleeps,
  subprocess spawns, reclamation passes) are returned as an event trace in
  program order.  `print` logging is not modelled.
-/

namespace TinyDVR

/-- A JSON value as produced by `json.dump` for the status dictionaries
(`None` ↦ `jnull`; numeric fields are modelled as integers). -/
inductive JVal where
  | jnull
  | jbool (b : Bool)
  | jnum (n : Int)
  | jstr (s : String)
deriving DecidableEq, Repr

/-- An optional numeric metric, as serialized: `None` becomes an explicit
JSON `null`, never an omitted key. -/
def optNum : Option Int → JVal
  | none => JVal.jnull
  | some n => JVal.jnum n

/-- Python's `str.endswith`, on the character sequences of the strings. -/
def ends_with (s suf : String) : Bool :=
  suf.data.isSuffixOf s.data

/-- `os.path.join(dir, name)` for a plain relative file name. -/
def joinPath (dir name : String) : String :=
  dir ++ "/" ++ name

/-- Outcome of one `os.remove` call: success, `FileNotFoundError`, or any
other exception. -/
inductive DelRes where
  | ok
  | notFound
  | otherErr
deriving DecidableEq, Repr

/-- A raw directory entry: the name returned by `os.listdir`, and the
`os.stat` result, `none` if the file vanished before the `stat`
(`FileNotFoundError`, silently skipped by `list_recording_files`). -/
structure DirEntry where
  name : String
  stat : Option (Int × Nat)
deriving DecidableEq, Repr

/-- A directory state: `none` when the directory itself is absent. -/
abbrev DirState := Option (List DirEntry)

/-- One `(full_path, mtime, size_bytes)` triple of `list_recording_files`. -/
structure SegFile where
  path : String
  mtime : Int
  size : Nat
deriving DecidableEq, Repr

/-- Oldest-first order on inventory entries: `key=lambda x: x[1]`. -/
def byMtime (a b : SegFile) : Prop := a.mtime ≤ b.mtime

instance : DecidableRel byMtime := fun a b => inferInstanceAs (Decidable (a.mtime ≤ b.mtime))

instance : IsTotal SegFile byMtime := ⟨fun a b => le_total a.mtime b.mtime⟩

instance : IsTrans SegFile byMtime := ⟨fun _ _ _ hab hbc => le_trans hab hbc⟩

/-- `list_recording_files(output_dir)`: the `.mp4` entries that could be
stat-ed, as `(path, mtime, size)` triples sorted oldest to newest by mtime
(`files.sort(key=lambda x: x[1])`); `[]` when the directory is absent.
Python's `list.sort` is a stable sort by the mtime key; it is modelled here
by the (stable) insertion sort under `byMtime`. -/
def list_recording_files (output_dir : String) (d : DirState) : List SegFile :=
  match d with
  | none => []
  | some entries =>
    let files := entries.filterMap fun e =>
      if ends_with e.name ".mp4" then
        match e.stat with
        | some st => some ⟨joinPath output_dir e.name, st.1, st.2⟩
        | none => none
      else none
    files.insertionSort byMtime

/-- `folder_size_bytes(output_dir)`: sum of the listed segment sizes. -/
def folder_size_bytes (output_dir : String) (d : DirState) : Nat :=
  ((list_recording_files output_dir d).map SegFile.size).sum

/-- `newest_recording_mtime(output_dir)`: the mtime of the last (newest)
listed file, or `None` when there are none. -/
def newest_recording_mtime (output_dir : String) (d : DirState) : Option Int :=
  ((list_recording_files output_dir d).getLast?).map SegFile.mtime

/-- The `while total > max_bytes and files:` loop of `enforce_storage_cap`,
instrumented to also return the paths actually deleted (in deletion order).
On `FileNotFoundError` the file is skipped (nothing is counted and `total`
is not reduced); on any other delete error the loop `break`s. -/
def reclaim_loop (del : String → DelRes) (max_bytes : Nat) :
    List SegFile → Nat → Nat → List String → Nat × List String
  | [], deleted, _total, acc => (deleted, acc.reverse)
  | f :: rest, deleted, total, acc =>
    if max_bytes < total then
      match del f.path with
      | DelRes.ok => reclaim_loop del max_bytes rest (deleted + 1) (total - f.size) (f.path :: acc)
      | DelRes.notFound => reclaim_loop del max_bytes rest deleted total acc
      | DelRes.otherErr => (deleted, acc.reverse)
    else (deleted, acc.reverse)

/-- `enforce_storage_cap(output_dir, max_bytes)`: delete oldest files until
the total is at most `max_bytes`.  The first component is the function's
return value (number of files deleted this pass); the second is the
instrumented list of deleted paths. -/
def enforce_storage_cap (del : String → DelRes) (output_dir : String) (d : DirState)
    (max_bytes : Nat) : Nat × List String :=
  let files := list_recording_files output_dir d
  let total := (files.map SegFile.size).sum
  reclaim_loop del max_bytes files 0 total []

/-- The delete oracle of a pass in which every `os.remove` succeeds. -/
def delOk : String → DelRes := fun _ => DelRes.ok

/-- Effect of the deletions on the directory: entries whose full path was
removed disappear. -/
def removePaths (output_dir : String) (d : DirState) (paths : List String) : DirState :=
  d.map fun entries => entries.filter fun e => !(paths.contains (joinPath output_dir e.name))

/-- The temporary path used by `write_status`. -/
def status_tmp_path (output_dir : String) : String :=
  joinPath output_dir "status.json.tmp"

/-- The final path used by `write_status`. -/
def status_final_path (output_dir : String) : String :=
  joinPath output_dir "status.json"

/-- The health judgment of lines 283–289 of `main`: healthy iff a newest
segment exists and `now - newest_mtime <= NO_PROGRESS_TIMEOUT_SECONDS`;
otherwise reason `no_new_segments`. -/
def health_check (newest_mtime : Option Int) (now timeout : Int) : Bool × String :=
  if newest_mtime.any fun m => now - m ≤ timeout then
    (true, "ok")
  else
    (false, "no_new_segments")

/-- The status dictionary written on the subprocess-death path
(lines 258–264 of `main`), in key order. -/
def death_status (stderr_tail now_iso : String) : List (String × JVal) :=
  [("recording", JVal.jbool false),
   ("reason", JVal.jstr "ffmpeg_exited"),
   ("timestamp", JVal.jstr now_iso),
   ("ffmpeg_pid", JVal.jnull),
   ("ffmpeg_stderr_tail", JVal.jstr stderr_tail)]

/-- Static configuration of the supervisor (the module-level constants). -/
structure Config where
  outputDir : String
  maxBytes : Nat
  timeout : Int
  backoff : Nat
  transport : String
  segmentSeconds : Nat
  maxStorageGb : Nat
  enableResourceLog : Bool

/-- The status dictionary written at the end of a normal tick
(lines 305–320 of `main`), in key order. -/
def tick_status (cfg : Config) (healthy : Bool) (reason now_iso : String)
    (folder_bytes : Nat) (newest_mtime : Option Int) (secs_since_ok : Int)
    (pid : Nat) (cpu mem : Option Int) (deleted : Nat) : List (String × JVal) :=
  [("recording", JVal.jbool healthy),
   ("reason", JVal.jstr reason),
   ("timestamp", JVal.jstr now_iso),
   ("rtsp_transport", JVal.jstr cfg.transport),
   ("segment_seconds", JVal.jnum cfg.segmentSeconds),
   ("max_storage_gb", JVal.jnum cfg.maxStorageGb),
   ("output_dir", JVal.jstr cfg.outputDir),
   ("folder_size_bytes", JVal.jnum folder_bytes),
   ("newest_segment_mtime", optNum newest_mtime),
   ("seconds_since_last_ok", JVal.jnum secs_since_ok),
   ("ffmpeg_pid", JVal.jnum pid),
   ("ffmpeg_cpu_percent", optNum cpu),
   ("ffmpeg_mem_mb", optNum mem),
   ("deleted_files_this_check", JVal.jnum deleted)]

/-- Environment of one tick: everything the loop body reads from the world. -/
structure TickEnv where
  /-- `proc.poll() is None`: the subprocess is still alive. -/
  procAlive : Bool
  /-- `tail_stderr(proc)` on the death path. -/
  stderrTail : String
  /-- `datetime.now().isoformat()`. -/
  nowIso : String
  /-- `time.time()` at the health check. -/
  now : Int
  /-- Directory contents at this tick (read fresh every tick). -/
  dir : DirState
  /-- Outcome of each `os.remove` this tick. -/
  del : String → DelRes
  /-- `psutil` sample `(cpu_percent, memory MB)`; `none` when it raises. -/
  metrics : Option (Int × Int)
  /-- pid of the subprocess spawned on the death path. -/
  newPid : Nat
  /-- `time.time()` right after the death-path restart. -/
  restartTime : Int

/-- State carried from one loop iteration to the next. -/
structure LoopState where
  lastOkTime : Int
  pid : Nat

/-- An observable action of the loop body, in program order. -/
inductive Event where
  /-- `write_status(OUTPUT_DIR, status)`. -/
  | publishEv (record : List (String × JVal))
  /-- `time.sleep(seconds)`. -/
  | sleepEv (seconds : Nat)
  /-- `subprocess.Popen(ffmpeg_cmd, ...)`. -/
  | spawnEv (pid : Nat)
  /-- `enforce_storage_cap(OUTPUT_DIR, max_bytes)` returning `deleted`. -/
  | reclaimEv (deleted : Nat)
deriving DecidableEq, Repr

def Event.isPublish : Event → Bool
  | Event.publishEv _ => true
  | _ => false

def Event.isSpawn : Event → Bool
  | Event.spawnEv _ => true
  | _ => false

def Event.isReclaim : Event → Bool
  | Event.reclaimEv _ => true
  | _ => false

/-- The status records of the publish events of a trace, in order. -/
def publishedRecords (tr : List Event) : List (List (String × JVal)) :=
  tr.filterMap fun e =>
    match e with
    | Event.publishEv r => some r
    | _ => none

/-- One iteration of the `while True:` loop of `main` (lines 250–327), after
the cadence sleep.  If the subprocess has exited: publish the death record,
sleep the backoff, respawn, reset `last_ok_time`, `continue`.  Otherwise:
judge freshness health, run the storage cap, recompute the folder size on
the post-deletion directory, gather best-effort metrics, publish the full
status record. -/
def tick (cfg : Config) (env : TickEnv) (st : LoopState) : LoopState × List Event :=
  if env.procAlive then
    let newest := newest_recording_mtime cfg.outputDir env.dir
    let hr := health_check newest env.now cfg.timeout
    let lastOk := if hr.1 then env.now else st.lastOkTime
    let pass := enforce_storage_cap env.del cfg.outputDir env.dir cfg.maxBytes
    let dirAfter := removePaths cfg.outputDir env.dir pass.2
    let folderBytes := folder_size_bytes cfg.outputDir dirAfter
    let sample := if cfg.enableResourceLog then env.metrics else none
    let cpu := sample.map Prod.fst
    let mem := sample.map Prod.snd
    let record := tick_status cfg hr.1 hr.2 env.nowIso folderBytes newest
      (env.now - lastOk) st.pid cpu mem pass.1
    (⟨lastOk, st.pid⟩, [Event.reclaimEv pass.1, Event.publishEv record])
  else
    let record := death_status env.stderrTail env.nowIso
    (⟨env.restartTime, env.newPid⟩,
     [Event.publishEv record, Event.sleepEv cfg.backoff, Event.spawnEv env.newPid])

/-- A trace satisfies the §5 ordering guarantee when every status
publication is preceded by a reclamation pass of the same tick. -/
def publishPrecededByReclaim (tr : List Event) : Prop :=
  ∀ i : Fin tr.length, (tr.get i).isPublish = true →
    ∃ j : Fin tr.length, j.val < i.val ∧ (tr.get j).isReclaim = true

instance (tr : List Event) : Decidable (publishPrecededByReclaim tr) := by
  unfold publishPrecededByReclaim
  infer_instance

/-- Modelled from the spec: the field names enumerated in §3 StatusRecord. -/
def statusRecordSpecFields : List String :=
  ["healthy", "reason", "observedAt", "folderSizeBytes", "newestSegmentTimestamp",
   "secondsSinceLastHealthy", "deletedThisTick", "processId", "cpuPercent", "memoryMb"]

/-- Modelled from the spec: the correspondence between the status-dictionary
keys used by the code and the §3 StatusRecord field names (`none` for a key
with no §3 counterpart). -/
def specFieldName (key : String) : Option String :=
  if key = "recording" then some "healthy"
  else if key = "reason" then some "reason"
  else if key = "timestamp" then some "observedAt"
  else if key = "folder_size_bytes" then some "folderSizeBytes"
  else if key = "newest_segment_mtime" then some "newestSegmentTimestamp"
  else if key = "seconds_since_last_ok" then some "secondsSinceLastHealthy"
  else if key = "deleted_files_this_check" then some "deletedThisTick"
  else if key = "ffmpeg_pid" then some "processId"
  else if key = "ffmpeg_cpu_percent" then some "cpuPercent"
  else if key = "ffmpeg_mem_mb" then some "memoryMb"
  else none

/-- `bytes_from_gb(gb)` for a whole number of gigabytes. -/
def bytes_from_gb (gb : Nat) : Nat := gb * 1024 * 1024 * 1024

/-- One 2 GB segment, in bytes (Scenario A of §8). -/
def twoGb : Nat := 2 * 1024 * 1024 * 1024

/-- The default `MAX_STORAGE_GB = 10` cap, in bytes. -/
def capTenGb : Nat := bytes_from_gb 10

/-- Scenario A, first directory: five 2 GB segments (10 GB total). -/
def scenarioFive : List DirEntry :=
  [⟨"a1.mp4", some (1, twoGb)⟩, ⟨"a2.mp4", some (2, twoGb)⟩, ⟨"a3.mp4", some (3, twoGb)⟩,
   ⟨"a4.mp4", some (4, twoGb)⟩, ⟨"a5.mp4", some (5, twoGb)⟩]

/-- Scenario A, second directory: a sixth 2 GB segment added (12 GB total). -/
def scenarioSix : List DirEntry := scenarioFive ++ [⟨"a6.mp4", some (6, twoGb)⟩]

/-- The number of files a reclamation pass in which every delete succeeds
removes, starting from running total `total`: the length of the shortest
prefix whose removal brings the total to at most `max_bytes` (or all of
them). -/
def evict (max_bytes : Nat) : List SegFile → Nat → Nat
  | [], _ => 0
  | f :: rest, total =>
    if max_bytes < total then evict max_bytes rest (total - f.size) + 1 else 0

/-- A concrete configuration for witnesses: the module-level constants of
the source (`OUTPUT_DIR`, 10 GB cap, 45 s freshness timeout, 5 s backoff). -/
def cfgW : Config := ⟨"./recordings", capTenGb, 45, 5, "tcp", 60, 10, true⟩

/-- Witness tick environment: the subprocess has exited. -/
def envDeadW : TickEnv := ⟨false, "tail", "iso1", 100, some [], delOk, none, 7, 120⟩

/-- Witness tick environment: alive, one segment 10 s old (fresh). -/
def envFreshW : TickEnv :=
  ⟨true, "", "iso2", 100, some [⟨"a.mp4", some (90, 5)⟩], delOk, none, 7, 0⟩

/-- Witness tick environment: alive, newest segment exactly `timeout` old. -/
def envBoundaryW : TickEnv :=
  ⟨true, "", "iso3", 135, some [⟨"a.mp4", some (90, 5)⟩], delOk, none, 7, 0⟩

/-- Witness tick environment: alive, newest segment `timeout + 1` old. -/
def envStaleW : TickEnv :=
  ⟨true, "", "iso4", 136, some [⟨"a.mp4", some (90, 5)⟩], delOk, none, 7, 0⟩

/-- Witness tick environment: one tick after `envStaleW`, still stale. -/
def envStale2W : TickEnv :=
  ⟨true, "", "iso5", 146, some [⟨"a.mp4", some (90, 5)⟩], delOk, none, 7, 0⟩

/-- Witness tick environment: alive, empty output directory. -/
def envEmptyW : TickEnv := ⟨true, "", "iso6", 100, some [], delOk, none, 7, 0⟩

/-- Witness loop state. -/
def stW : LoopState := ⟨20, 3⟩

/-- A witness delete oracle: `FileNotFoundError` on `f.mp4`, a permission
error on `g.mp4`, success elsewhere. -/
def delMixedW : String → DelRes := fun p =>
  if p = "f.mp4" then DelRes.notFound
  else if p = "g.mp4" then DelRes.otherErr
  else DelRes.ok

theorem reclaim_loop_stop (del : String → DelRes) (max_bytes : Nat) (files : List SegFile)
    (deleted total : Nat) (acc : List String) (h : ¬ max_bytes < total) :
    reclaim_loop del max_bytes files deleted total acc = (deleted, acc.reverse) := by
  cases files with
  | nil => rfl
  | cons f rest => simp [reclaim_loop, h]

theorem reclaim_loop_count (del : String → DelRes) (max_bytes : Nat) :
    ∀ (files : List SegFile) (deleted total : Nat) (acc : List String),
      (reclaim_loop del max_bytes files deleted total acc).2.length + deleted =
        (reclaim_loop del max_bytes files deleted total acc).1 + acc.length := by
  intro files
  induction files with
  | nil =>
    intro deleted total acc
    simp only [reclaim_loop, List.length_reverse]
    omega
  | cons f rest ih =>
    intro deleted total acc
    by_cases h : max_bytes < total
    · simp only [reclaim_loop, if_pos h]
      cases hdel : del f.path <;> dsimp only
      · have := ih (deleted + 1) (total - f.size) (f.path :: acc)
        simp only [List.length_cons] at this
        omega
      · exact ih deleted total acc
      · simp only [List.length_reverse]
        omega
    · rw [reclaim_loop_stop del max_bytes _ deleted total acc h]
      simp only [List.length_reverse]
      omega

theorem reclaim_loop_deleted_ok (del : String → DelRes) (max_bytes : Nat) :
    ∀ (files : List SegFile) (deleted total : Nat) (acc : List String),
      (∀ p ∈ acc, del p = DelRes.ok) →
      ∀ p ∈ (reclaim_loop del max_bytes files deleted total acc).2, del p = DelRes.ok := by
  intro files
  induction files with
  | nil =>
    intro deleted total acc hacc p hp
    simp only [reclaim_loop, List.mem_reverse] at hp
    exact hacc p hp
  | cons f rest ih =>
    intro deleted total acc hacc p hp
    by_cases h : max_bytes < total
    · simp only [reclaim_loop, if_pos h] at hp
      cases hdel : del f.path <;> rw [hdel] at hp
      · refine ih (deleted + 1) (total - f.size) (f.path :: acc) ?_ p hp
        intro q hq
        rcases List.mem_cons.mp hq with hq | hq
        · simpa [hq] using hdel
        · exact hacc q hq
      · exact ih deleted total acc hacc p hp
      · simp only [List.mem_reverse] at hp
        exact hacc p hp
    · rw [reclaim_loop_stop del max_bytes _ deleted total acc h] at hp
      simp only [List.mem_reverse] at hp
      exact hacc p hp

theorem reclaim_loop_deleted_mem (del : String → DelRes) (max_bytes : Nat) :
    ∀ (files : List SegFile) (deleted total : Nat) (acc : List String),
      ∀ p ∈ (reclaim_loop del max_bytes files deleted total acc).2,
        p ∈ files.map SegFile.path ∨ p ∈ acc := by
  intro files
  induction files with
  | nil =>
    intro deleted total acc p hp
    simp only [reclaim_loop, List.mem_reverse] at hp
    exact Or.inr hp
  | cons f rest ih =>
    intro deleted total acc p hp
    by_cases h : max_bytes < total
    · simp only [reclaim_loop, if_pos h] at hp
      cases hdel : del f.path <;> rw [hdel] at hp
      · rcases ih (deleted + 1) (total - f.size) (f.path :: acc) p hp with hm | hm
        · exact Or.inl (by simp [hm])
        · rcases List.mem_cons.mp hm with hm | hm
          · exact Or.inl (by simp [hm])
          · exact Or.inr hm
      · rcases ih deleted total acc p hp with hm | hm
        · exact Or.inl (by simp [hm])
        · exact Or.inr hm
      · simp only [List.mem_reverse] at hp
        exact Or.inr hp
    · rw [reclaim_loop_stop del max_bytes _ deleted total acc h] at hp
      simp only [List.mem_reverse] at hp
      exact Or.inr hp

theorem reclaim_loop_delOk (max_bytes : Nat) :
    ∀ (files : List SegFile) (deleted total : Nat) (acc : List String),
      reclaim_loop delOk max_bytes files deleted total acc =
        (deleted + evict max_bytes files total,
         acc.reverse ++ (files.take (evict max_bytes files total)).map SegFile.path) := by
  intro files
  induction files with
  | nil => intro deleted total acc; simp [reclaim_loop, evict]
  | cons f rest ih =>
    intro deleted total acc
    by_cases h : max_bytes < total
    · simp only [reclaim_loop, if_pos h, delOk]
      rw [ih (deleted + 1) (total - f.size) (f.path :: acc)]
      simp only [evict, if_pos h, Prod.mk.injEq, List.reverse_cons, List.take_succ_cons,
        List.map_cons, List.append_assoc, List.singleton_append]
      refine ⟨by omega, by simp⟩
    · rw [reclaim_loop_stop delOk max_bytes _ deleted total acc h]
      simp [evict, h]

theorem evict_eq_zero (max_bytes : Nat) (files : List SegFile) (total : Nat)
    (h : ¬ max_bytes < total) : evict max_bytes files total = 0 := by
  cases files with
  | nil => rfl
  | cons f rest => simp [evict, h]

theorem evict_le_or_all (max_bytes : Nat) :
    ∀ files : List SegFile,
      (((files.drop (evict max_bytes files ((files.map SegFile.size).sum))).map
          SegFile.size).sum ≤ max_bytes)
      ∨ evict max_bytes files ((files.map SegFile.size).sum) = files.length := by
  intro files
  induction files with
  | nil => exact Or.inl (by simp [evict])
  | cons f rest ih =>
    by_cases h : max_bytes < ((f :: rest).map SegFile.size).sum
    · have hsub : ((f :: rest).map SegFile.size).sum - f.size = (rest.map SegFile.size).sum := by
        simp only [List.map_cons, List.sum_cons]
        omega
      simp only [evict, if_pos h, hsub, List.drop_succ_cons, List.length_cons]
      rcases ih with hle | hall
      · exact Or.inl hle
      · exact Or.inr (by omega)
    · rw [evict_eq_zero max_bytes _ _ h]
      exact Or.inl (by simpa using Nat.le_of_not_lt h)

theorem evict_pos (max_bytes : Nat) (files : List SegFile)
    (h : max_bytes < ((files.map SegFile.size).sum)) :
    1 ≤ evict max_bytes files ((files.map SegFile.size).sum) := by
  cases files with
  | nil => simp at h
  | cons f rest =>
    have h2 : max_bytes < f.size + (rest.map SegFile.size).sum := by simpa using h
    simp only [evict, List.map_cons, List.sum_cons, if_pos h2]
    omega

theorem evict_minimal (max_bytes : Nat) :
    ∀ files : List SegFile, max_bytes < (files.map SegFile.size).sum →
      max_bytes <
        ((files.drop (evict max_bytes files ((files.map SegFile.size).sum) - 1)).map
          SegFile.size).sum := by
  intro files
  induction files with
  | nil => intro h; simp at h
  | cons f rest ih =>
    intro h
    have hsub : ((f :: rest).map SegFile.size).sum - f.size = (rest.map SegFile.size).sum := by
      simp only [List.map_cons, List.sum_cons]
      omega
    simp only [evict, if_pos h, hsub, Nat.add_sub_cancel]
    cases hk : evict max_bytes rest ((rest.map SegFile.size).sum) with
    | zero => simpa using h
    | succ k =>
      have hrest : max_bytes < (rest.map SegFile.size).sum := by
        by_contra hc
        rw [evict_eq_zero max_bytes rest _ hc] at hk
        exact Nat.succ_ne_zero k hk.symm
      have := ih hrest
      rw [hk] at this
      simpa using this

theorem ends_with_joinPath (dir name suf : String) (h : ends_with name suf = true) :
    ends_with (joinPath dir name) suf = true := by
  unfold ends_with joinPath
  unfold ends_with at h
  rw [List.isSuffixOf_iff_suffix] at h ⊢
  refine h.trans ?_
  simp only [String.data_append]
  exact List.suffix_append _ _

theorem list_recording_files_sorted (output_dir : String) (d : DirState) :
    ((list_recording_files output_dir d).map SegFile.mtime).Sorted (· ≤ ·) := by
  cases d with
  | none => simp [list_recording_files]
  | some entries =>
    simp only [list_recording_files]
    exact List.pairwise_map.mpr (List.sorted_insertionSort byMtime _)

theorem list_recording_files_mem (output_dir : String) (d : DirState) :
    ∀ f ∈ list_recording_files output_dir d,
      ends_with f.path ".mp4" = true ∧ ∃ name, f.path = joinPath output_dir name := by
  intro f hf
  cases d with
  | none => simp [list_recording_files] at hf
  | some entries =>
    simp only [list_recording_files, List.mem_insertionSort, List.mem_filterMap] at hf
    obtain ⟨e, _, hfe⟩ := hf
    by_cases hm : ends_with e.name ".mp4"
    · rw [if_pos hm] at hfe
      cases hst : e.stat with
      | none => rw [hst] at hfe; cases hfe
      | some st =>
        rw [hst] at hfe
        cases hfe
        exact ⟨ends_with_joinPath output_dir e.name ".mp4" hm, e.name, rfl⟩
    · rw [if_neg hm] at hfe
      cases hfe

theorem ends_with_join_mp4_false (dir name : String)
    (hne : ¬ (".mp4" : String).data <:+ name.data)
    (hlen : (".mp4" : String).data.length ≤ name.data.length) :
    ends_with (joinPath dir name) ".mp4" = false := by
  unfold ends_with joinPath
  rw [Bool.eq_false_iff]
  intro h
  rw [List.isSuffixOf_iff_suffix, String.data_append] at h
  exact hne (List.suffix_of_suffix_length_le h (List.suffix_append _ _) hlen)

theorem list_recording_files_skip (output_dir name : String)
    (stat : Option (Int × Nat)) (entries : List DirEntry)
    (h : ends_with name ".mp4" = false) :
    list_recording_files output_dir (some (⟨name, stat⟩ :: entries)) =
      list_recording_files output_dir (some entries) := by
  simp only [list_recording_files, List.filterMap_cons, h]
  simp

/-- C10: the inventory lists only `.mp4` paths, every path a reclamation
pass deletes is an inventory path and hence ends in `.mp4`, so the status
file and its temporary sibling are never deleted; and entries named
`status.json` or `status.json.tmp` contribute nothing to the inventory or
to `folder_size_bytes`. -/
theorem C10_status_file_safe (output_dir : String) (d : DirState) (del : String → DelRes)
    (max_bytes : Nat) (entries : List DirEntry) (stat : Option (Int × Nat)) :
    (∀ f ∈ list_recording_files output_dir d, ends_with f.path ".mp4" = true) ∧
    (∀ p ∈ (enforce_storage_cap del output_dir d max_bytes).2, ends_with p ".mp4" = true) ∧
    status_final_path output_dir ∉ (enforce_storage_cap del output_dir d max_bytes).2 ∧
    status_tmp_path output_dir ∉ (enforce_storage_cap del output_dir d max_bytes).2 ∧
    list_recording_files output_dir (some (⟨"status.json", stat⟩ :: entries)) =
      list_recording_files output_dir (some entries) ∧
    folder_size_bytes output_dir (some (⟨"status.json", stat⟩ :: entries)) =
      folder_size_bytes output_dir (some entries) ∧
    list_recording_files output_dir (some (⟨"status.json.tmp", stat⟩ :: entries)) =
      list_recording_files output_dir (some entries) ∧
    folder_size_bytes output_dir (some (⟨"status.json.tmp", stat⟩ :: entries)) =
      folder_size_bytes output_dir (some entries) := by
  have hmem : ∀ p ∈ (enforce_storage_cap del output_dir d max_bytes).2,
      ends_with p ".mp4" = true := by
    intro p hp
    unfold enforce_storage_cap at hp
    rcases reclaim_loop_deleted_mem del max_bytes _ 0 _ [] p hp with hm | hm
    · obtain ⟨f, hf, rfl⟩ := List.mem_map.mp hm
      exact (list_recording_files_mem output_dir d f hf).1
    · cases hm
  have hjson : ends_with (joinPath output_dir "status.json") ".mp4" = false :=
    ends_with_join_mp4_false output_dir "status.json" (by decide) (by decide)
  have htmp : ends_with (joinPath output_dir "status.json.tmp") ".mp4" = false :=
    ends_with_join_mp4_false output_dir "status.json.tmp" (by decide) (by decide)
  have hskip1 := list_recording_files_skip output_dir "status.json" stat entries (by decide)
  have hskip2 := list_recording_files_skip output_dir "status.json.tmp" stat entries (by decide)
  refine ⟨fun f hf => (list_recording_files_mem output_dir d f hf).1, hmem, ?_, ?_,
    hskip1, ?_, hskip2, ?_⟩
  · intro hp
    have h1 := hmem _ hp
    rw [status_final_path] at h1
    simp [h1] at hjson
  · intro hp
    have h1 := hmem _ hp
    rw [status_tmp_path] at h1
    simp [h1] at htmp
  · unfold folder_size_bytes
    rw [hskip1]
  · unfold folder_size_bytes
    rw [hskip2]

/-- C1: with every delete succeeding, `enforce_storage_cap` deletes exactly
the files of a prefix of the mtime-sorted inventory (hence oldest first, in
ascending mtime order), stops as soon as the remaining total is at most the
cap (unless it ran out of files), deletes at least one file when over cap,
and never more than necessary: one fewer deletion would leave the total
over the cap.  Scenario A: five 2 GB files against a 10 GB cap delete
nothing; a sixth 2 GB file makes the pass delete exactly the oldest file. -/
theorem C1_eviction_correct (output_dir : String) (d : DirState) (max_bytes : Nat)
    (hS : max_bytes < folder_size_bytes output_dir d) :
    ((list_recording_files output_dir d).map SegFile.mtime).Sorted (· ≤ ·) ∧
    (enforce_storage_cap delOk output_dir d max_bytes).2 =
      ((list_recording_files output_dir d).take
        (enforce_storage_cap delOk output_dir d max_bytes).1).map SegFile.path ∧
    ((((list_recording_files output_dir d).drop
        (enforce_storage_cap delOk output_dir d max_bytes).1).map SegFile.size).sum ≤ max_bytes
      ∨ (enforce_storage_cap delOk output_dir d max_bytes).1 =
          (list_recording_files output_dir d).length) ∧
    1 ≤ (enforce_storage_cap delOk output_dir d max_bytes).1 ∧
    max_bytes <
      (((list_recording_files output_dir d).drop
        ((enforce_storage_cap delOk output_dir d max_bytes).1 - 1)).map SegFile.size).sum ∧
    enforce_storage_cap delOk "./recordings" (some scenarioFive) capTenGb = (0, []) ∧
    enforce_storage_cap delOk "./recordings" (some scenarioSix) capTenGb =
      (1, [joinPath "./recordings" "a1.mp4"]) := by
  have hS' : max_bytes < ((list_recording_files output_dir d).map SegFile.size).sum := by
    unfold folder_size_bytes at hS
    exact hS
  have hrun : enforce_storage_cap delOk output_dir d max_bytes =
      (evict max_bytes (list_recording_files output_dir d)
        ((list_recording_files output_dir d).map SegFile.size).sum,
       ((list_recording_files output_dir d).take
         (evict max_bytes (list_recording_files output_dir d)
           ((list_recording_files output_dir d).map SegFile.size).sum)).map SegFile.path) := by
    unfold enforce_storage_cap
    rw [reclaim_loop_delOk max_bytes (list_recording_files output_dir d) 0 _ []]
    simp
  refine ⟨list_recording_files_sorted output_dir d, ?_, ?_, ?_, ?_, by decide, by decide⟩
  · rw [hrun]
  · rw [hrun]
    exact evict_le_or_all max_bytes _
  · rw [hrun]
    exact evict_pos max_bytes _ hS'
  · rw [hrun]
    exact evict_minimal max_bytes _ hS'

/-- Witness for C1: Scenario A's six 2 GB files are over the 10 GB cap and
the pass deletes at least one file (in fact exactly the oldest). -/
theorem C1_eviction_correct_witness :
    capTenGb < folder_size_bytes "./recordings" (some scenarioSix) ∧
    1 ≤ (enforce_storage_cap delOk "./recordings" (some scenarioSix) capTenGb).1 :=
  ⟨by decide,
   (C1_eviction_correct "./recordings" (some scenarioSix) capTenGb (by decide)).2.2.2.1⟩

/-- C9: a reclamation pass on a directory whose segment total is already at
or below the cap deletes no files and returns 0, whatever the delete
oracle; in particular a second call right after a pass that brought the
total under the cap deletes nothing. -/
theorem C9_reclaim_noop_under_cap (del : String → DelRes) (output_dir : String)
    (d : DirState) (max_bytes : Nat)
    (h : folder_size_bytes output_dir d ≤ max_bytes) :
    enforce_storage_cap del output_dir d max_bytes = (0, []) := by
  unfold enforce_storage_cap
  have h2 : ¬ max_bytes < ((list_recording_files output_dir d).map SegFile.size).sum := by
    unfold folder_size_bytes at h
    omega
  simpa using reclaim_loop_stop del max_bytes _ 0 _ [] h2

/-- Witness for C9: Scenario A's five 2 GB files sum to exactly the 10 GB
cap, and the pass deletes nothing. -/
theorem C9_reclaim_noop_under_cap_witness :
    folder_size_bytes "./recordings" (some scenarioFive) ≤ capTenGb ∧
    enforce_storage_cap delOk "./recordings" (some scenarioFive) capTenGb = (0, []) :=
  ⟨by decide,
   C9_reclaim_noop_under_cap delOk "./recordings" (some scenarioFive) capTenGb (by decide)⟩

/-- C7: during a reclamation pass the deleted count equals the number of
files actually deleted and every deleted path had a successful delete; a
`FileNotFoundError` on the oldest file is skipped and the pass continues
with the remaining files; any other delete error ends the pass at once with
the count accumulated so far.  The pass is a total function: it always
returns normally. -/
theorem C7_delete_error_policy (del : String → DelRes) (output_dir : String) (d : DirState)
    (max_bytes : Nat) (f g : SegFile) (rest : List SegFile) (deleted total : Nat)
    (acc : List String) (hover : max_bytes < total)
    (hnf : del f.path = DelRes.notFound) (hoe : del g.path = DelRes.otherErr) :
    (enforce_storage_cap del output_dir d max_bytes).2.length =
      (enforce_storage_cap del output_dir d max_bytes).1 ∧
    (∀ p ∈ (enforce_storage_cap del output_dir d max_bytes).2, del p = DelRes.ok) ∧
    reclaim_loop del max_bytes (f :: rest) deleted total acc =
      reclaim_loop del max_bytes rest deleted total acc ∧
    reclaim_loop del max_bytes (g :: rest) deleted total acc = (deleted, acc.reverse) := by
  refine ⟨?_, ?_, ?_, ?_⟩
  · have := reclaim_loop_count del max_bytes (list_recording_files output_dir d) 0
      ((list_recording_files output_dir d).map SegFile.size).sum []
    unfold enforce_storage_cap
    simp only [List.length_nil] at this ⊢
    omega
  · intro p hp
    exact reclaim_loop_deleted_ok del max_bytes _ 0 _ [] (by simp) p hp
  · simp only [reclaim_loop, if_pos hover, hnf]
  · simp only [reclaim_loop, if_pos hover, hoe]

/-- Witness for C7 at a concrete mixed-failure pass. -/
theorem C7_delete_error_policy_witness :
    (enforce_storage_cap delMixedW "./recordings" (some scenarioSix) capTenGb).2.length =
      (enforce_storage_cap delMixedW "./recordings" (some scenarioSix) capTenGb).1 ∧
    (∀ p ∈ (enforce_storage_cap delMixedW "./recordings" (some scenarioSix) capTenGb).2,
      delMixedW p = DelRes.ok) ∧
    reclaim_loop delMixedW capTenGb [⟨"f.mp4", 1, 5⟩, ⟨"h.mp4", 2, 5⟩] 0 (capTenGb + 1) [] =
      reclaim_loop delMixedW capTenGb [⟨"h.mp4", 2, 5⟩] 0 (capTenGb + 1) [] ∧
    reclaim_loop delMixedW capTenGb [⟨"g.mp4", 1, 5⟩, ⟨"h.mp4", 2, 5⟩] 0 (capTenGb + 1) [] =
      (0, []) := by
  have h := C7_delete_error_policy delMixedW "./recordings" (some scenarioSix) capTenGb
    ⟨"f.mp4", 1, 5⟩ ⟨"g.mp4", 1, 5⟩ [⟨"h.mp4", 2, 5⟩] 0 (capTenGb + 1) []
    (by decide) (by decide) (by decide)
  simpa using h

theorem tick_dead (cfg : Config) (env : TickEnv) (st : LoopState)
    (h : env.procAlive = false) :
    tick cfg env st =
      (⟨env.restartTime, env.newPid⟩,
       [Event.publishEv (death_status env.stderrTail env.nowIso),
        Event.sleepEv cfg.backoff, Event.spawnEv env.newPid]) := by
  simp [tick, h]

theorem tick_alive (cfg : Config) (env : TickEnv) (st : LoopState)
    (h : env.procAlive = true) :
    tick cfg env st =
      (⟨if (health_check (newest_recording_mtime cfg.outputDir env.dir) env.now cfg.timeout).1
          then env.now else st.lastOkTime, st.pid⟩,
       [Event.reclaimEv (enforce_storage_cap env.del cfg.outputDir env.dir cfg.maxBytes).1,
        Event.publishEv (tick_status cfg
          (health_check (newest_recording_mtime cfg.outputDir env.dir) env.now cfg.timeout).1
          (health_check (newest_recording_mtime cfg.outputDir env.dir) env.now cfg.timeout).2
          env.nowIso
          (folder_size_bytes cfg.outputDir (removePaths cfg.outputDir env.dir
            (enforce_storage_cap env.del cfg.outputDir env.dir cfg.maxBytes).2))
          (newest_recording_mtime cfg.outputDir env.dir)
          (env.now - (if (health_check (newest_recording_mtime cfg.outputDir env.dir) env.now
              cfg.timeout).1 then env.now else st.lastOkTime))
          st.pid
          ((if cfg.enableResourceLog then env.metrics else none).map Prod.fst)
          ((if cfg.enableResourceLog then env.metrics else none).map Prod.snd)
          (enforce_storage_cap env.del cfg.outputDir env.dir cfg.maxBytes).1)]) := by
  simp [tick, h]

theorem publishedRecords_pair (a : Nat) (r : List (String × JVal)) :
    publishedRecords [Event.reclaimEv a, Event.publishEv r] = [r] := rfl

theorem publishedRecords_dead (r : List (String × JVal)) (b p : Nat) :
    publishedRecords [Event.publishEv r, Event.sleepEv b, Event.spawnEv p] = [r] := rfl

theorem health_check_some_true (now timeout m : Int) (h : now - m ≤ timeout) :
    health_check (some m) now timeout = (true, "ok") := by
  unfold health_check
  rw [if_pos]
  simpa using h

theorem health_check_some_false (now timeout m : Int) (h : ¬ now - m ≤ timeout) :
    health_check (some m) now timeout = (false, "no_new_segments") := by
  unfold health_check
  rw [if_neg]
  simpa using h

theorem health_check_spec (newest : Option Int) (now timeout : Int) :
    ((health_check newest now timeout).1 = true ↔
      ∃ m, newest = some m ∧ now - m ≤ timeout) ∧
    ((health_check newest now timeout).1 = false →
      (health_check newest now timeout).2 = "no_new_segments") := by
  cases newest with
  | none =>
    have hn : health_check none now timeout = (false, "no_new_segments") := rfl
    rw [hn]
    constructor
    · constructor
      · intro hf
        exact nomatch hf
      · rintro ⟨m, hm, _⟩
        cases hm
    · intro _
      rfl
  | some m =>
    by_cases h : now - m ≤ timeout
    · rw [health_check_some_true now timeout m h]
      constructor
      · constructor
        · intro _
          exact ⟨m, rfl, h⟩
        · intro _
          rfl
      · intro hf
        exact nomatch hf
    · rw [health_check_some_false now timeout m h]
      constructor
      · constructor
        · intro hf
          exact nomatch hf
        · rintro ⟨m2, hm, hle⟩
          cases hm
          exact absurd hle h
      · intro _
        rfl

theorem lookup_tick_status (cfg : Config) (healthy : Bool) (reason now_iso : String)
    (folder_bytes : Nat) (newest : Option Int) (secs : Int) (pid : Nat)
    (cpu mem : Option Int) (deleted : Nat) :
    List.lookup "recording"
        (tick_status cfg healthy reason now_iso folder_bytes newest secs pid cpu mem deleted) =
      some (JVal.jbool healthy) ∧
    List.lookup "reason"
        (tick_status cfg healthy reason now_iso folder_bytes newest secs pid cpu mem deleted) =
      some (JVal.jstr reason) ∧
    List.lookup "folder_size_bytes"
        (tick_status cfg healthy reason now_iso folder_bytes newest secs pid cpu mem deleted) =
      some (JVal.jnum folder_bytes) ∧
    List.lookup "newest_segment_mtime"
        (tick_status cfg healthy reason now_iso folder_bytes newest secs pid cpu mem deleted) =
      some (optNum newest) ∧
    List.lookup "seconds_since_last_ok"
        (tick_status cfg healthy reason now_iso folder_bytes newest secs pid cpu mem deleted) =
      some (JVal.jnum secs) ∧
    List.lookup "deleted_files_this_check"
        (tick_status cfg healthy reason now_iso folder_bytes newest secs pid cpu mem deleted) =
      some (JVal.jnum deleted) :=
  ⟨rfl, rfl, rfl, rfl, rfl, rfl⟩

/-- C2 counterexample: the record published on the subprocess-death path
carries no key corresponding to the §3 field `folderSizeBytes` (nor the
other derived metrics), and the normal-tick record carries the key
`rtsp_transport`, which corresponds to no §3 field — so neither publication
path carries exactly the fields enumerated in §3. -/
theorem C2_counterexample :
    (∀ k ∈ (death_status "tail" "iso1").map Prod.fst,
      specFieldName k ≠ some "folderSizeBytes") ∧
    "rtsp_transport" ∈
      (tick_status cfgW true "ok" "iso1" 0 none 0 1 none none 0).map Prod.fst ∧
    specFieldName "rtsp_transport" = none := by decide

/-- C2 as amended: the two publication paths each write a fixed key set —
the normal tick writes the ten §3 fields (under the code's key names) plus
four extra configuration keys, while the death path writes only five keys
(healthy, reason, observedAt, processId and a stderr tail), omitting the
derived metrics; absent optional metrics that are present are explicit
JSON nulls, never omitted keys (cpu/memory/newest-mtime on the normal
path, the pid on the death path). -/
theorem C2_status_fields (cfg : Config) (healthy : Bool) (reason now_iso : String)
    (folder_bytes : Nat) (newest : Option Int) (secs : Int) (pid : Nat)
    (cpu mem : Option Int) (deleted : Nat) (stderr_tail iso2 : String) :
    (tick_status cfg healthy reason now_iso folder_bytes newest secs pid cpu mem deleted).map
        Prod.fst =
      ["recording", "reason", "timestamp", "rtsp_transport", "segment_seconds",
       "max_storage_gb", "output_dir", "folder_size_bytes", "newest_segment_mtime",
       "seconds_since_last_ok", "ffmpeg_pid", "ffmpeg_cpu_percent", "ffmpeg_mem_mb",
       "deleted_files_this_check"] ∧
    (death_status stderr_tail iso2).map Prod.fst =
      ["recording", "reason", "timestamp", "ffmpeg_pid", "ffmpeg_stderr_tail"] ∧
    List.lookup "ffmpeg_cpu_percent"
        (tick_status cfg healthy reason now_iso folder_bytes newest secs pid none mem deleted) =
      some JVal.jnull ∧
    List.lookup "ffmpeg_mem_mb"
        (tick_status cfg healthy reason now_iso folder_bytes newest secs pid cpu none deleted) =
      some JVal.jnull ∧
    List.lookup "newest_segment_mtime"
        (tick_status cfg healthy reason now_iso folder_bytes none secs pid cpu mem deleted) =
      some JVal.jnull ∧
    List.lookup "ffmpeg_pid" (death_status stderr_tail iso2) = some JVal.jnull :=
  ⟨rfl, rfl, rfl, rfl, rfl, rfl⟩

/-- C3 counterexample: on the subprocess-death path the tick publishes a
status record with no reclamation pass preceding it in the same tick, so
the ordering guarantee does not hold for every path that writes the status
file. -/
theorem C3_counterexample :
    ¬ publishPrecededByReclaim (tick cfgW envDeadW stW).2 := by decide

/-- C3 as amended: on a normal (subprocess-alive) tick, every publication
is preceded in the same tick by that tick's reclamation pass, and the
published folder size and deletion count are this tick's post-reclamation
folder size and this pass's count; the death path publishes without a
reclamation pass, but its record carries no folder-size or deletion-count
field at all. -/
theorem C3_reclaim_before_publish (cfg : Config) (envA envD : TickEnv)
    (stA stD : LoopState) (hA : envA.procAlive = true) (hD : envD.procAlive = false) :
    publishPrecededByReclaim (tick cfg envA stA).2 ∧
    (∀ rec ∈ publishedRecords (tick cfg envA stA).2,
      List.lookup "deleted_files_this_check" rec =
        some (JVal.jnum (enforce_storage_cap envA.del cfg.outputDir envA.dir cfg.maxBytes).1) ∧
      List.lookup "folder_size_bytes" rec =
        some (JVal.jnum (folder_size_bytes cfg.outputDir (removePaths cfg.outputDir envA.dir
          (enforce_storage_cap envA.del cfg.outputDir envA.dir cfg.maxBytes).2)))) ∧
    (∀ rec ∈ publishedRecords (tick cfg envD stD).2,
      "folder_size_bytes" ∉ rec.map Prod.fst ∧
      "deleted_files_this_check" ∉ rec.map Prod.fst) := by
  rw [tick_dead cfg envD stD hD, tick_alive cfg envA stA hA]
  refine ⟨?_, ?_, ?_⟩
  · intro i hi
    fin_cases i
    · simp [Event.isPublish] at hi
    · exact ⟨⟨0, by simp⟩, by simp, rfl⟩
  · intro rec hrec
    rw [publishedRecords_pair, List.mem_singleton] at hrec
    subst hrec
    exact ⟨(lookup_tick_status _ _ _ _ _ _ _ _ _ _ _).2.2.2.2.2,
           (lookup_tick_status _ _ _ _ _ _ _ _ _ _ _).2.2.1⟩
  · intro rec hrec
    rw [publishedRecords_dead, List.mem_singleton] at hrec
    subst hrec
    constructor <;> · intro hmem; simp [death_status] at hmem

/-- Witness tick environment for C3/C4 and friends: see `envFreshW`,
`envDeadW`. Witness for C3 applies the amended theorem at them. -/
theorem C3_reclaim_before_publish_witness :
    publishPrecededByReclaim (tick cfgW envFreshW stW).2 :=
  (C3_reclaim_before_publish cfgW envFreshW envDeadW stW stW rfl rfl).1

/-- C4: on a detected subprocess exit the tick first publishes the death
record (healthy=false, reason `ffmpeg_exited`), performs no reclamation or
health evaluation, and every spawn of a new subprocess in the tick is
preceded by that publication and by a sleep of the full backoff interval. -/
theorem C4_death_report_and_backoff (cfg : Config) (env : TickEnv) (st : LoopState)
    (h : env.procAlive = false) :
    (∃ rest, (tick cfg env st).2 =
      Event.publishEv (death_status env.stderrTail env.nowIso) :: rest) ∧
    List.lookup "recording" (death_status env.stderrTail env.nowIso) =
      some (JVal.jbool false) ∧
    List.lookup "reason" (death_status env.stderrTail env.nowIso) =
      some (JVal.jstr "ffmpeg_exited") ∧
    (∀ e ∈ (tick cfg env st).2, e.isReclaim = false) ∧
    (∀ i : Fin (tick cfg env st).2.length, ((tick cfg env st).2.get i).isSpawn = true →
      (∃ j : Fin (tick cfg env st).2.length, j.val < i.val ∧
        (tick cfg env st).2.get j = Event.sleepEv cfg.backoff) ∧
      (∃ k : Fin (tick cfg env st).2.length, k.val < i.val ∧
        ((tick cfg env st).2.get k).isPublish = true)) := by
  rw [tick_dead cfg env st h]
  refine ⟨⟨_, rfl⟩, rfl, rfl, ?_, ?_⟩
  · intro e he
    fin_cases he <;> rfl
  · intro i hi
    fin_cases i
    · simp [Event.isSpawn] at hi
    · simp [Event.isSpawn] at hi
    · exact ⟨⟨⟨1, by simp⟩, by simp, rfl⟩, ⟨⟨0, by simp⟩, by simp, rfl⟩⟩

/-- Witness for C4 at the concrete dead-subprocess tick. -/
theorem C4_death_report_and_backoff_witness :
    ∃ rest, (tick cfgW envDeadW stW).2 =
      Event.publishEv (death_status envDeadW.stderrTail envDeadW.nowIso) :: rest :=
  (C4_death_report_and_backoff cfgW envDeadW stW rfl).1

/-- C5: on a subprocess-alive tick the published record is healthy exactly
when a newest segment exists whose age `now - mtime` is at most the
freshness timeout (inclusive boundary: age exactly `T` is healthy, age
`T + 1` is not), the healthy flag is always a boolean, and an unhealthy
record carries reason `no_new_segments`. -/
theorem C5_freshness_boundary (cfg : Config) (env : TickEnv) (st : LoopState)
    (h : env.procAlive = true) :
    ∀ rec ∈ publishedRecords (tick cfg env st).2,
      (List.lookup "recording" rec = some (JVal.jbool true) ↔
        ∃ m, newest_recording_mtime cfg.outputDir env.dir = some m ∧
          env.now - m ≤ cfg.timeout) ∧
      (List.lookup "recording" rec = some (JVal.jbool true) ∨
        List.lookup "recording" rec = some (JVal.jbool false)) ∧
      (List.lookup "recording" rec = some (JVal.jbool false) →
        List.lookup "reason" rec = some (JVal.jstr "no_new_segments")) := by
  rw [tick_alive cfg env st h]
  intro rec hrec
  rw [publishedRecords_pair, List.mem_singleton] at hrec
  subst hrec
  have hl := lookup_tick_status cfg
    (health_check (newest_recording_mtime cfg.outputDir env.dir) env.now cfg.timeout).1
    (health_check (newest_recording_mtime cfg.outputDir env.dir) env.now cfg.timeout).2
    env.nowIso
    (folder_size_bytes cfg.outputDir (removePaths cfg.outputDir env.dir
      (enforce_storage_cap env.del cfg.outputDir env.dir cfg.maxBytes).2))
    (newest_recording_mtime cfg.outputDir env.dir)
    (env.now - (if (health_check (newest_recording_mtime cfg.outputDir env.dir) env.now
        cfg.timeout).1 then env.now else st.lastOkTime))
    st.pid
    ((if cfg.enableResourceLog then env.metrics else none).map Prod.fst)
    ((if cfg.enableResourceLog then env.metrics else none).map Prod.snd)
    (enforce_storage_cap env.del cfg.outputDir env.dir cfg.maxBytes).1
  have hs := health_check_spec (newest_recording_mtime cfg.outputDir env.dir) env.now cfg.timeout
  refine ⟨?_, ?_, ?_⟩
  · rw [hl.1]
    simp only [Option.some.injEq, JVal.jbool.injEq]
    exact hs.1
  · rw [hl.1]
    cases (health_check (newest_recording_mtime cfg.outputDir env.dir) env.now cfg.timeout).1
    · exact Or.inr rfl
    · exact Or.inl rfl
  · intro hfalse
    rw [hl.1] at hfalse
    simp only [Option.some.injEq, JVal.jbool.injEq] at hfalse
    rw [hl.2.1, hs.2 hfalse]

/-- Witness for C5: with timeout 45 and a segment of mtime 90, the tick at
`now = 135` (age exactly 45) publishes healthy; at `now = 136` (age 46) it
publishes unhealthy with reason `no_new_segments`. -/
theorem C5_freshness_boundary_witness :
    (∀ rec ∈ publishedRecords (tick cfgW envBoundaryW stW).2,
      List.lookup "recording" rec = some (JVal.jbool true)) ∧
    (∀ rec ∈ publishedRecords (tick cfgW envStaleW stW).2,
      List.lookup "recording" rec = some (JVal.jbool false) ∧
      List.lookup "reason" rec = some (JVal.jstr "no_new_segments")) := by
  constructor
  · intro rec hrec
    have h := C5_freshness_boundary cfgW envBoundaryW stW rfl rec hrec
    exact h.1.mpr ⟨90, by decide, by decide⟩
  · intro rec hrec
    have h := C5_freshness_boundary cfgW envStaleW stW rfl rec hrec
    have h90 : newest_recording_mtime cfgW.outputDir envStaleW.dir = some 90 := by decide
    have hnot : ¬ ∃ m, newest_recording_mtime cfgW.outputDir envStaleW.dir = some m ∧
        envStaleW.now - m ≤ cfgW.timeout := by
      rintro ⟨m, hm, hle⟩
      rw [h90] at hm
      cases hm
      exact absurd hle (by decide)
    have hfalse := h.2.1.resolve_left fun htrue => hnot (h.1.mp htrue)
    exact ⟨hfalse, h.2.2 hfalse⟩

/-- C6: across consecutive subprocess-alive ticks judged unhealthy, the
internal last-known-healthy timestamp is left unchanged, so the published
`seconds_since_last_ok` strictly increases as the clock advances. -/
theorem C6_stale_monotonic (cfg : Config) (env1 env2 : TickEnv) (st0 : LoopState)
    (h1 : env1.procAlive = true) (h2 : env2.procAlive = true)
    (hu1 : (health_check (newest_recording_mtime cfg.outputDir env1.dir) env1.now
      cfg.timeout).1 = false)
    (hu2 : (health_check (newest_recording_mtime cfg.outputDir env2.dir) env2.now
      cfg.timeout).1 = false)
    (hnow : env1.now < env2.now) :
    (tick cfg env1 st0).1.lastOkTime = st0.lastOkTime ∧
    (tick cfg env2 (tick cfg env1 st0).1).1.lastOkTime = st0.lastOkTime ∧
    ∀ r1 ∈ publishedRecords (tick cfg env1 st0).2,
      ∀ r2 ∈ publishedRecords (tick cfg env2 (tick cfg env1 st0).1).2,
        ∃ s1 s2 : Int,
          List.lookup "seconds_since_last_ok" r1 = some (JVal.jnum s1) ∧
          List.lookup "seconds_since_last_ok" r2 = some (JVal.jnum s2) ∧ s1 < s2 := by
  have hst1 : (tick cfg env1 st0).1.lastOkTime = st0.lastOkTime := by
    rw [tick_alive cfg env1 st0 h1]
    simp [hu1]
  have hst2 : (tick cfg env2 (tick cfg env1 st0).1).1.lastOkTime = st0.lastOkTime := by
    rw [tick_alive cfg env2 (tick cfg env1 st0).1 h2]
    simp [hu2, hst1]
  refine ⟨hst1, hst2, ?_⟩
  intro r1 hr1 r2 hr2
  rw [tick_alive cfg env2 (tick cfg env1 st0).1 h2] at hr2
  rw [tick_alive cfg env1 st0 h1] at hr1
  rw [publishedRecords_pair, List.mem_singleton] at hr1 hr2
  subst hr1
  subst hr2
  refine ⟨env1.now - st0.lastOkTime, env2.now - st0.lastOkTime, ?_, ?_, by omega⟩
  · rw [(lookup_tick_status _ _ _ _ _ _ _ _ _ _ _).2.2.2.2.1]
    rw [hu1]
    simp
  · rw [(lookup_tick_status _ _ _ _ _ _ _ _ _ _ _).2.2.2.2.1]
    rw [hu2, hst1]
    simp

/-- Witness for C6 at two consecutive concrete stale ticks. -/
theorem C6_stale_monotonic_witness :
    (tick cfgW envStaleW stW).1.lastOkTime = stW.lastOkTime ∧
    (tick cfgW envStale2W (tick cfgW envStaleW stW).1).1.lastOkTime = stW.lastOkTime :=
  have h := C6_stale_monotonic cfgW envStaleW envStale2W stW rfl rfl
    (by decide) (by decide) (by decide)
  ⟨h.1, h.2.1⟩

/-- C8: for an absent or empty output directory the inventory is the empty
list, the folder size is 0, the newest timestamp is `None`, and an alive
tick publishes an unhealthy record with reason `no_new_segments`, folder
size 0 and an explicit null newest timestamp; every function on this path
is total (no crash). -/
theorem C8_empty_dir (cfg : Config) (env : TickEnv) (st : LoopState)
    (h : env.procAlive = true) (hd : env.dir = none ∨ env.dir = some []) :
    list_recording_files cfg.outputDir env.dir = [] ∧
    folder_size_bytes cfg.outputDir env.dir = 0 ∧
    newest_recording_mtime cfg.outputDir env.dir = none ∧
    ∀ rec ∈ publishedRecords (tick cfg env st).2,
      List.lookup "recording" rec = some (JVal.jbool false) ∧
      List.lookup "reason" rec = some (JVal.jstr "no_new_segments") ∧
      List.lookup "folder_size_bytes" rec = some (JVal.jnum 0) ∧
      List.lookup "newest_segment_mtime" rec = some JVal.jnull := by
  have hlist : list_recording_files cfg.outputDir env.dir = [] := by
    rcases hd with hd | hd <;> rw [hd] <;> rfl
  have hfold : folder_size_bytes cfg.outputDir env.dir = 0 := by
    unfold folder_size_bytes
    rw [hlist]
    rfl
  have hnew : newest_recording_mtime cfg.outputDir env.dir = none := by
    unfold newest_recording_mtime
    rw [hlist]
    rfl
  have hfold2 : folder_size_bytes cfg.outputDir (removePaths cfg.outputDir env.dir
      (enforce_storage_cap env.del cfg.outputDir env.dir cfg.maxBytes).2) = 0 := by
    rcases hd with hd | hd <;> rw [hd] <;> rfl
  refine ⟨hlist, hfold, hnew, ?_⟩
  intro rec hrec
  rw [tick_alive cfg env st h] at hrec
  rw [publishedRecords_pair, List.mem_singleton] at hrec
  subst hrec
  have hl := lookup_tick_status cfg
    (health_check (newest_recording_mtime cfg.outputDir env.dir) env.now cfg.timeout).1
    (health_check (newest_recording_mtime cfg.outputDir env.dir) env.now cfg.timeout).2
    env.nowIso
    (folder_size_bytes cfg.outputDir (removePaths cfg.outputDir env.dir
      (enforce_storage_cap env.del cfg.outputDir env.dir cfg.maxBytes).2))
    (newest_recording_mtime cfg.outputDir env.dir)
    (env.now - (if (health_check (newest_recording_mtime cfg.outputDir env.dir) env.now
        cfg.timeout).1 then env.now else st.lastOkTime))
    st.pid
    ((if cfg.enableResourceLog then env.metrics else none).map Prod.fst)
    ((if cfg.enableResourceLog then env.metrics else none).map Prod.snd)
    (enforce_storage_cap env.del cfg.outputDir env.dir cfg.maxBytes).1
  have hhc : health_check (newest_recording_mtime cfg.outputDir env.dir) env.now cfg.timeout =
      (false, "no_new_segments") := by
    rw [hnew]
    rfl
  refine ⟨?_, ?_, ?_, ?_⟩
  · rw [hl.1, hhc]
  · rw [hl.2.1, hhc]
  · rw [hl.2.2.1, hfold2]
    rfl
  · rw [hl.2.2.2.1, hnew]
    rfl

/-- Witness for C8 at a concrete alive tick over an empty directory. -/
theorem C8_empty_dir_witness :
    list_recording_files cfgW.outputDir envEmptyW.dir = [] ∧
    folder_size_bytes cfgW.outputDir envEmptyW.dir = 0 ∧
    newest_recording_mtime cfgW.outputDir envEmptyW.dir = none :=
  have h := C8_empty_dir cfgW envEmptyW stW rfl (Or.inr rfl)
  ⟨h.1, h.2.1, h.2.2.1⟩

end TinyDVR
